import Mathlib

set_option maxRecDepth 16000

/-!
Verification development for the drone-detection GUI application
(`app.py`, `main.py`): a shallow embedding of its signal path
(sample acquisition, Welch spectrum, threshold detection) and of the
frequency-slider handlers, together with theorems settling the spec claims.

Modelling conventions:
* Python floats are modelled as real numbers `ℝ`; the slider thresholds,
  which are integers, as `ℤ`; frequency-bin values, which are exact dyadic
  rationals, as `ℚ`.
* The HackRF device is external; its stream of answers to `read_samples`
  is modelled as an oracle `ℕ → Option (List ℂ)` indexed by the number of
  reads performed so far.
* `scipy.signal.welch` is an external library routine.
  Modelled from the spec: "Welch's averaged-periodogram method with the
  given segment length and 'spectrum' scaling"; since the application
  always passes `nperseg = BUFFER_SIZE` = the buffer length, there is a
  single segment, modelled as a one-sided periodogram with "spectrum"
  scaling on the frequency grid `k * fs / n`, `k = 0 .. n/2`.
-/

/-! ### Constants from `app.py` -/

/-- `BUFFER_SIZE = 8192` — buffer size for HackRF data. -/
def BUFFER_SIZE : ℕ := 8192

/-- `SAMPLE_RATE = 10e6` — 10 MHz. -/
def SAMPLE_RATE : ℚ := 10 ^ 7

/-- `FREQUENCY = 2.4e9` — 2.4 GHz default center frequency. -/
def FREQUENCY : ℚ := 24 * 10 ^ 8

/-- `THRESHOLD_POWER = -50` — default power threshold in dB. -/
def THRESHOLD_POWER : ℤ := -50

/-- `FREQ_MIN = 1e9` — minimum slider frequency in Hz. -/
def FREQ_MIN : ℚ := 10 ^ 9

/-- `FREQ_MAX = 10e9` — maximum slider frequency in Hz. -/
def FREQ_MAX : ℚ := 10 ^ 10

/-- `FREQ_SCALE = (FREQ_MAX - FREQ_MIN) / 1000` — slider range scaling. -/
def FREQ_SCALE : ℚ := (FREQ_MAX - FREQ_MIN) / 1000

/-! ### Model of `scipy.signal.welch` (external library)

Modelled from the spec: the spec pins only "Welch's averaged-periodogram
method with the given segment length and 'spectrum' scaling"; with
`nperseg` equal to the input length there is exactly one segment, so the
estimate is the one-sided periodogram of that segment: the DFT magnitude
squared, normalised by the squared window sum (`n²` for the unit
window), with interior bins doubled to account for the discarded
negative frequencies, on the frequency grid `k·fs/n`, `k = 0 … n/2`. -/

/-- DFT of the (zero-padded) real input at bin `k` of an `n`-point transform. -/
noncomputable def welch_dft (xs : List ℝ) (n k : ℕ) : ℂ :=
  ∑ j ∈ Finset.range n,
    Complex.ofReal (xs.getD j 0)
      * Complex.exp (-(2 * Real.pi * Complex.I * (j : ℂ) * (k : ℂ)) / (n : ℂ))

/-- One-sided "spectrum"-scaled power at bin `k`: `|X_k|² / n²`, doubled at
interior bins (`0 < k < n/2`) to fold in the negative frequencies. -/
noncomputable def welch_power (xs : List ℝ) (n k : ℕ) : ℝ :=
  (if k = 0 ∨ k = n / 2 then 1 else 2) * (‖welch_dft xs n k‖ ^ 2 / (n : ℝ) ^ 2)

/-- One-sided frequency grid `k · fs / n`, `k = 0 … n/2` (exact rationals). -/
def welch_freqs (fs : ℚ) (n : ℕ) : List ℚ :=
  (List.range (n / 2 + 1)).map (fun (k : ℕ) => (k : ℚ) * fs / (n : ℚ))

/-- `welch(x, fs, nperseg=n, scaling="spectrum")` — frequency bins paired
with the power-spectrum estimate (see the modelling note above). -/
noncomputable def welch (xs : List ℝ) (fs : ℚ) (n : ℕ) : List ℚ × List ℝ :=
  (welch_freqs fs n, (List.range (n / 2 + 1)).map (fun k => welch_power xs n k))

/-! ### `App.compute_spectrum` -/

/-- The two masking lines
`positive_freqs = freqs[freqs >= 0]` / `positive_power = power[freqs >= 0]`:
keep exactly the (frequency, power) positions whose frequency is ≥ 0,
in their original order. -/
def positive_bins (freqs : List ℚ) (power : List ℝ) : List ℚ × List ℝ :=
  let kept := (freqs.zip power).filter (fun q => decide (0 ≤ q.1))
  (kept.map Prod.fst, kept.map Prod.snd)

/-- `App.compute_spectrum` on a complex buffer (`np.iscomplexobj` is true for
the complex arrays produced by `read_samples`): Welch on the real and the
imaginary parts separately, powers summed, converted as `10*log10(power/2)`,
then masked to non-negative frequencies. -/
noncomputable def compute_spectrum (samples : List ℂ) : List ℚ × List ℝ :=
  let fr := welch (samples.map Complex.re) SAMPLE_RATE BUFFER_SIZE
  let power_imag := (welch (samples.map Complex.im) SAMPLE_RATE BUFFER_SIZE).2
  let power := (List.zipWith (fun a b => a + b) fr.2 power_imag).map
    (fun p => 10 * Real.logb 10 (p / 2))
  positive_bins fr.1 power

/-- `App.compute_spectrum` on a real buffer (the `else` branch of the
`np.iscomplexobj` dispatch): Welch directly, converted as `10*log10(power)`,
then masked to non-negative frequencies. -/
noncomputable def compute_spectrum_real (xs : List ℝ) : List ℚ × List ℝ :=
  let fr := welch xs SAMPLE_RATE BUFFER_SIZE
  positive_bins fr.1 (fr.2.map (fun p => 10 * Real.logb 10 p))

/-! ### Float values and the threshold comparison -/

/-- Value domain of `max_power` as seen by `check_bandwidth`: a finite
float (modelled as a real), `-np.inf` (returned by `analyze_signal` when no
buffer is available), or IEEE-754 `NaN` (which `10*log10` produces on a
negative power in floating point; the real-valued spectrum model itself
never creates one, but the comparison semantics must still cover it). -/
inductive FloatVal
  | fin (x : ℝ)
  | negInf
  | nan

open Classical in
/-- The Python/numpy float comparison `max_power > power_level`, per
IEEE-754 semantics: ordinary order on finite values, `-inf` is below every
threshold, and any comparison with `NaN` is false. -/
noncomputable def FloatVal.fgt : FloatVal → ℝ → Bool
  | FloatVal.fin x, t => decide (t < x)
  | FloatVal.negInf, _ => false
  | FloatVal.nan, _ => false

/-- `np.max` over the (always non-empty) list of dB powers. The `[]` case is
unreachable in the pipeline — `welch` always returns `n/2 + 1` bins — and is
mapped to `-inf` for totality. -/
noncomputable def maxPowerF : List ℝ → FloatVal
  | [] => FloatVal.negInf
  | x :: xs => FloatVal.fin (xs.foldl max x)

/-! ### Application state and the timer-tick pipeline -/

/-- The HackRF configuration fields set on `self.hackrf`. -/
structure DeviceConfig where
  center_freq : ℚ
  sample_rate : ℚ
  lna_gain : ℤ
  vga_gain : ℤ

/-- The mutable state of `App` that the signal path touches: the threshold
slider value, the data held by `spectrum_line` (`displayed`), the detection
status label (`detected`), the device configuration, and the number of
`read_samples` calls issued so far (`readCount`, the oracle position). -/
structure AppState where
  threshold : ℤ
  displayed : List ℚ × List ℝ
  detected : Bool
  device : DeviceConfig
  readCount : ℕ

/-- The device's answers to successive `read_samples(BUFFER_SIZE)` calls:
the `i`-th call returns `o i` (a buffer, or none when the device has no
data). -/
def Oracle : Type := ℕ → Option (List ℂ)

/-- `self.hackrf.read_samples(BUFFER_SIZE)`: consume the next oracle
answer and advance the read position. -/
def read_samples (o : Oracle) (s : AppState) : Option (List ℂ) × AppState :=
  (o s.readCount, { s with readCount := s.readCount + 1 })

/-- `App.analyze_signal`: acquire a fresh buffer; on success return the
maximum dB power of its spectrum, otherwise `-np.inf`. -/
noncomputable def analyze_signal (o : Oracle) (s : AppState) : FloatVal × AppState :=
  match read_samples o s with
  | (some samples, s2) => (maxPowerF (compute_spectrum samples).2, s2)
  | (none, s2) => (FloatVal.negInf, s2)

/-- `App.drone_detected`: set the status label to "Detected!". -/
def drone_detected (s : AppState) : AppState := { s with detected := true }

/-- `App.drone_not_detected`: set the status label to "Not Detected". -/
def drone_not_detected (s : AppState) : AppState := { s with detected := false }

/-- The decision step of `App.check_bandwidth`, given the max power already
returned by `analyze_signal`: `if max_power > power_level: drone_detected()
else: drone_not_detected()`. -/
noncomputable def check_bandwidth_with (max_power : FloatVal) (s : AppState) : AppState :=
  if max_power.fgt (s.threshold : ℝ) then drone_detected s else drone_not_detected s

/-- `App.check_bandwidth`: read the slider threshold, call `analyze_signal`
(which performs its own acquisition), and compare. -/
noncomputable def check_bandwidth (o : Oracle) (s : AppState) : AppState :=
  match analyze_signal o s with
  | (m, s2) => check_bandwidth_with m s2

/-- `App.update_spectrum`, the timer-tick callback: acquire a buffer; if one
is available, display its spectrum and then run `check_bandwidth`; if not,
do nothing further this tick. -/
noncomputable def update_spectrum (o : Oracle) (s : AppState) : AppState :=
  match read_samples o s with
  | (some samples, s2) => check_bandwidth o { s2 with displayed := compute_spectrum samples }
  | (none, s2) => s2

/-! ### Slider handlers -/

/-- `App.on_freq_min_change`: average the current center frequency with the
slider-derived frequency `FREQ_MIN + value * FREQ_SCALE`. -/
def on_freq_min_change (value : ℤ) (s : AppState) : AppState :=
  { s with device := { s.device with
      center_freq := (s.device.center_freq + (FREQ_MIN + (value : ℚ) * FREQ_SCALE)) / 2 } }

/-- `App.on_freq_max_change`: identical body to `on_freq_min_change`
(the `max_freq` local is derived by the same formula). -/
def on_freq_max_change (value : ℤ) (s : AppState) : AppState :=
  { s with device := { s.device with
      center_freq := (s.device.center_freq + (FREQ_MIN + (value : ℚ) * FREQ_SCALE)) / 2 } }

/-! ### Model of `main.py` -/

/-- The global names bound in the `main.py` module when `main()` runs:
`import sys`, `from PyQt6.QtWidgets import QApplication`,
`from app import App`, and the `def main` itself. No Python builtin is
named `DroneDetectionApp` either. -/
def main_module_globals : List String := ["sys", "QApplication", "App", "main"]

/-- The class name that `main()` tries to instantiate. -/
def missing_name : String := "DroneDetectionApp"

/-- Outcome of running `main()`: either execution reaches `window.show()`,
or a `NameError` is raised first. -/
inductive MainOutcome
  | windowShown
  | nameError (missing : String)
deriving DecidableEq

/-- `main()` modelled statement by statement: `app = QApplication(sys.argv)`
succeeds; `window = DroneDetectionApp()` first resolves the name
`DroneDetectionApp` against the module globals (and builtins, none of which
bind it) — if unbound, Python raises `NameError` there, before
`window.show()` is ever reached. -/
def main_run : MainOutcome :=
  if main_module_globals.contains missing_name
  then MainOutcome.windowShown
  else MainOutcome.nameError missing_name

/-! ### Concrete inputs used by counterexamples and witnesses -/

/-- A constant all-ones complex buffer of the acquisition size. -/
noncomputable def bufA : List ℂ := List.replicate BUFFER_SIZE 1

/-- An impulse buffer: one sample of amplitude `8192/10`, then silence.
Its periodogram is flat and strictly positive at every bin. -/
noncomputable def xsI : List ℝ := (8192 / 10 : ℝ) :: List.replicate 8191 0

/-- The device configuration set in `App.__init__`. -/
def init_device : DeviceConfig :=
  { center_freq := FREQUENCY, sample_rate := SAMPLE_RATE, lna_gain := 40, vga_gain := 20 }

/-- A tick state with the threshold slider at its minimum, −120 dB. -/
def st0 : AppState :=
  { threshold := -120, displayed := ([], []), detected := false
    device := init_device, readCount := 0 }

/-- A state in which a drone is currently reported detected, at the default
−50 dB threshold. -/
def stPrior : AppState :=
  { threshold := THRESHOLD_POWER, displayed := ([], []), detected := true
    device := init_device, readCount := 0 }

/-- An oracle that answers the first read with the all-ones buffer and
every later read with none. -/
noncomputable def oA : Oracle := fun n => if n = 0 then some bufA else none

/-- An oracle whose device never has data. -/
def oNone : Oracle := fun _ => none

/-! ### Generic list lemmas -/

lemma getD_map_range {α : Type} (F : ℕ → α) {n k : ℕ} (d : α) (hk : k < n) :
    ((List.range n).map F).getD k d = F k := by
  rw [List.getD_eq_getElem _ _ (by simpa using hk)]
  simp

lemma zipWith_map_same {α β : Type} (f : β → β → β) (g h : α → β) (l : List α) :
    List.zipWith f (l.map g) (l.map h) = l.map (fun x => f (g x) (h x)) := by
  induction l with
  | nil => rfl
  | cons a as ih => simp [ih]

lemma getD_replicate_zero (n m : ℕ) :
    (List.replicate n (0 : ℝ)).getD m 0 = 0 := by
  rcases Nat.lt_or_ge m n with h | h
  · rw [List.getD_eq_getElem _ _ (by simpa using h)]
    simp
  · exact List.getD_eq_default _ _ (by simpa using h)

lemma getD_replicate_one {n m : ℕ} (h : m < n) :
    (List.replicate n (1 : ℝ)).getD m 0 = 1 := by
  rw [List.getD_eq_getElem _ _ (by simpa using h)]
  simp

lemma le_foldl_max (a : ℝ) (as : List ℝ) : a ≤ as.foldl max a := by
  induction as generalizing a with
  | nil => exact le_refl a
  | cons b bs ih => exact le_trans (le_max_left a b) (ih (max a b))

lemma mem_le_foldl_max {x : ℝ} {a : ℝ} {as : List ℝ} (hx : x ∈ a :: as) :
    x ≤ as.foldl max a := by
  induction as generalizing a with
  | nil => simpa using le_of_eq (by simpa using hx)
  | cons b bs ih =>
    rcases List.mem_cons.mp hx with rfl | hx2
    · exact le_trans (le_max_left x b) (le_foldl_max _ _)
    · rcases List.mem_cons.mp hx2 with rfl | hx3
      · exact ih (List.mem_cons_self _ _) |>.trans_eq rfl |> fun h => by
          simpa using le_trans (le_max_right a x) (le_foldl_max (max a x) bs)
      · exact ih (List.mem_cons_of_mem _ hx3)

lemma maxPowerF_fgt_true {l : List ℝ} {x t : ℝ} (hx : x ∈ l) (ht : t < x) :
    (maxPowerF l).fgt t = true := by
  cases l with
  | nil => simp at hx
  | cons a as =>
    have hle : x ≤ as.foldl max a := mem_le_foldl_max hx
    simp only [maxPowerF, FloatVal.fgt]
    exact decide_eq_true (lt_of_lt_of_le ht hle)

/-! ### Structure of the Welch output and of `compute_spectrum` -/

lemma welch_freqs_length (fs : ℚ) (n : ℕ) : (welch_freqs fs n).length = n / 2 + 1 := by
  unfold welch_freqs
  rw [List.length_map, List.length_range]

lemma welch_snd_length (xs : List ℝ) (fs : ℚ) (n : ℕ) :
    (welch xs fs n).2.length = n / 2 + 1 := by
  unfold welch
  rw [List.length_map, List.length_range]

lemma welch_freqs_nonneg {fs : ℚ} (hfs : 0 ≤ fs) (n : ℕ) :
    ∀ q ∈ welch_freqs fs n, 0 ≤ q := by
  intro q hq
  rcases List.mem_map.mp hq with ⟨k, _, rfl⟩
  exact div_nonneg (mul_nonneg (Nat.cast_nonneg k) hfs) (Nat.cast_nonneg n)

lemma positive_bins_eq {fr : List ℚ} {pw : List ℝ} (hlen : fr.length = pw.length)
    (hpos : ∀ q ∈ fr, 0 ≤ q) : positive_bins fr pw = (fr, pw) := by
  have hfil : (fr.zip pw).filter (fun q => decide (0 ≤ q.1)) = fr.zip pw := by
    apply List.filter_eq_self.mpr
    intro p hp
    exact decide_eq_true (hpos p.1 (List.of_mem_zip hp).1)
  simp only [positive_bins]
  rw [hfil, List.map_fst_zip _ _ (le_of_eq hlen), List.map_snd_zip _ _ (le_of_eq hlen.symm)]

/-- Fully evaluated form of `compute_spectrum`: all frequencies are
non-negative, so the mask keeps every bin. -/
lemma compute_spectrum_eq (samples : List ℂ) :
    compute_spectrum samples =
      (welch_freqs SAMPLE_RATE BUFFER_SIZE,
       (List.range (BUFFER_SIZE / 2 + 1)).map (fun k => 10 * Real.logb 10
         ((welch_power (samples.map Complex.re) BUFFER_SIZE k
           + welch_power (samples.map Complex.im) BUFFER_SIZE k) / 2))) := by
  unfold compute_spectrum
  simp only [welch]
  rw [zipWith_map_same]
  rw [positive_bins_eq (by simp [welch_freqs])
    (welch_freqs_nonneg (by norm_num [SAMPLE_RATE]) BUFFER_SIZE)]
  simp [List.map_map, Function.comp]

/-- Fully evaluated form of `compute_spectrum_real`. -/
lemma compute_spectrum_real_eq (xs : List ℝ) :
    compute_spectrum_real xs =
      (welch_freqs SAMPLE_RATE BUFFER_SIZE,
       (List.range (BUFFER_SIZE / 2 + 1)).map (fun k => 10 * Real.logb 10
         (welch_power xs BUFFER_SIZE k))) := by
  unfold compute_spectrum_real
  simp only [welch]
  rw [positive_bins_eq (by simp [welch_freqs])
    (welch_freqs_nonneg (by norm_num [SAMPLE_RATE]) BUFFER_SIZE)]
  simp [List.map_map, Function.comp]

/-! ### Welch on special buffers -/

lemma welch_dft_of_all_zero {xs : List ℝ} (hxs : ∀ x ∈ xs, x = 0) (n k : ℕ) :
    welch_dft xs n k = 0 := by
  unfold welch_dft
  apply Finset.sum_eq_zero
  intro j _
  have hj : xs.getD j 0 = 0 := by
    rcases Nat.lt_or_ge j xs.length with h | h
    · rw [List.getD_eq_getElem _ _ h]
      exact hxs _ (List.getElem_mem h)
    · exact List.getD_eq_default _ _ h
  rw [hj]
  simp

lemma welch_power_of_all_zero {xs : List ℝ} (hxs : ∀ x ∈ xs, x = 0) (n k : ℕ) :
    welch_power xs n k = 0 := by
  unfold welch_power
  rw [welch_dft_of_all_zero hxs]
  simp

lemma welch_snd_getD (xs : List ℝ) (fs : ℚ) {n k : ℕ} (hk : k < n / 2 + 1) :
    (welch xs fs n).2.getD k 0 = welch_power xs n k := by
  unfold welch
  exact getD_map_range _ _ hk

/-- The DFT of the impulse buffer is the impulse amplitude at every bin. -/
lemma welch_dft_xsI (k : ℕ) :
    welch_dft xsI BUFFER_SIZE k = Complex.ofReal (8192 / 10) := by
  unfold welch_dft
  rw [Finset.sum_eq_single 0]
  · have h0 : xsI.getD 0 0 = 8192 / 10 := rfl
    rw [h0]
    simp only [Nat.cast_zero, mul_zero, zero_mul, neg_zero, zero_div,
      Complex.exp_zero, mul_one]
  · intro j _ hj0
    have hj : xsI.getD j 0 = 0 := by
      cases j with
      | zero => exact absurd rfl hj0
      | succ m =>
        have hstep : xsI.getD (m + 1) 0 = (List.replicate 8191 (0 : ℝ)).getD m 0 := rfl
        rw [hstep]
        exact getD_replicate_zero 8191 m
    rw [hj]
    simp
  · intro h
    exact absurd (Finset.mem_range.mpr (by norm_num [BUFFER_SIZE])) h

/-- The impulse periodogram: `1/100` at the edge bins, `1/50` inside. -/
lemma welch_power_xsI (k : ℕ) :
    welch_power xsI BUFFER_SIZE k =
      (if k = 0 ∨ k = BUFFER_SIZE / 2 then 1 else 2) * (1 / 100) := by
  unfold welch_power
  rw [welch_dft_xsI]
  have hnorm : ‖Complex.ofReal ((8192 : ℝ) / 10)‖ ^ 2 / ((BUFFER_SIZE : ℕ) : ℝ) ^ 2
      = 1 / 100 := by
    rw [Complex.norm_eq_abs, Complex.abs_ofReal, abs_of_nonneg (by norm_num : (0:ℝ) ≤ 8192 / 10)]
    norm_num [BUFFER_SIZE]
  rw [hnorm]

/-- The DC bin of the all-ones buffer has DFT value `8192`. -/
lemma welch_dft_ones :
    welch_dft (List.replicate BUFFER_SIZE (1 : ℝ)) BUFFER_SIZE 0 = (BUFFER_SIZE : ℂ) := by
  unfold welch_dft
  rw [Finset.sum_congr rfl (g := fun _ => (1 : ℂ))]
  · simp
  · intro j hj
    rw [getD_replicate_one (Finset.mem_range.mp hj)]
    simp

/-- The DC power of the all-ones buffer is 1. -/
lemma welch_power_ones :
    welch_power (List.replicate BUFFER_SIZE (1 : ℝ)) BUFFER_SIZE 0 = 1 := by
  unfold welch_power
  rw [welch_dft_ones]
  norm_num [BUFFER_SIZE]

/-! ### Pointwise dB values and elementary `log10` facts -/

lemma compute_spectrum_snd_getD (samples : List ℂ) {k : ℕ} (hk : k < BUFFER_SIZE / 2 + 1) :
    (compute_spectrum samples).2.getD k 0 =
      10 * Real.logb 10 ((welch_power (samples.map Complex.re) BUFFER_SIZE k
        + welch_power (samples.map Complex.im) BUFFER_SIZE k) / 2) := by
  rw [compute_spectrum_eq]
  exact getD_map_range _ _ hk

lemma compute_spectrum_real_snd_getD (xs : List ℝ) {k : ℕ} (hk : k < BUFFER_SIZE / 2 + 1) :
    (compute_spectrum_real xs).2.getD k 0 =
      10 * Real.logb 10 (welch_power xs BUFFER_SIZE k) := by
  rw [compute_spectrum_real_eq]
  exact getD_map_range _ _ hk

lemma map_ofReal_re (xs : List ℝ) :
    (xs.map Complex.ofReal).map Complex.re = xs := by
  rw [List.map_map]
  simp [Function.comp_def]

lemma map_ofReal_im_all_zero (xs : List ℝ) :
    ∀ y ∈ (xs.map Complex.ofReal).map Complex.im, y = 0 := by
  intro y hy
  rw [List.map_map] at hy
  rcases List.mem_map.mp hy with ⟨x, _, rfl⟩
  simp [Function.comp]

lemma logb_ten_two_pos : 0 < Real.logb 10 2 :=
  Real.logb_pos (by norm_num) (by norm_num)

lemma logb_ten_two_lt_one : Real.logb 10 2 < 1 := by
  have h := Real.logb_lt_logb (b := 10) (by norm_num) (by norm_num : (0:ℝ) < 2)
    (by norm_num : (2:ℝ) < 10)
  rwa [Real.logb_self_eq_one (by norm_num)] at h

/-- The halving introduced by the complex path: on a strictly positive
power `P`, `10*log10(P/2)` sits exactly `10*log10 2` below `10*log10 P`. -/
lemma db_half_shift {P : ℝ} (hP : 0 < P) :
    10 * Real.logb 10 (P / 2) = 10 * Real.logb 10 P - 10 * Real.logb 10 2 := by
  rw [Real.logb_div (ne_of_gt hP) (by norm_num)]
  ring

/-! ### Behaviour of the detection decision -/

lemma check_bandwidth_with_detected (m : FloatVal) (s : AppState) :
    (check_bandwidth_with m s).detected = m.fgt (s.threshold : ℝ) := by
  unfold check_bandwidth_with
  cases h : m.fgt (s.threshold : ℝ) <;>
    simp [h, drone_detected, drone_not_detected]

lemma check_bandwidth_with_readCount (m : FloatVal) (s : AppState) :
    (check_bandwidth_with m s).readCount = s.readCount := by
  unfold check_bandwidth_with
  split <;> rfl

lemma check_bandwidth_with_displayed (m : FloatVal) (s : AppState) :
    (check_bandwidth_with m s).displayed = s.displayed := by
  unfold check_bandwidth_with
  split <;> rfl

lemma fgt_fin_iff (x t : ℝ) : (FloatVal.fin x).fgt t = true ↔ t < x := by
  simp [FloatVal.fgt]

lemma analyze_signal_eq (o : Oracle) (s : AppState) :
    analyze_signal o s =
      ((match o s.readCount with
        | some samples => maxPowerF (compute_spectrum samples).2
        | none => FloatVal.negInf),
       { s with readCount := s.readCount + 1 }) := by
  unfold analyze_signal read_samples
  cases o s.readCount <;> rfl

lemma check_bandwidth_eq (o : Oracle) (s : AppState) :
    check_bandwidth o s =
      check_bandwidth_with
        (match o s.readCount with
          | some samples => maxPowerF (compute_spectrum samples).2
          | none => FloatVal.negInf)
        { s with readCount := s.readCount + 1 } := by
  unfold check_bandwidth
  rw [analyze_signal_eq]

lemma update_spectrum_some {o : Oracle} {s : AppState} {buf : List ℂ}
    (h : o s.readCount = some buf) :
    update_spectrum o s =
      check_bandwidth o
        { s with readCount := s.readCount + 1, displayed := compute_spectrum buf } := by
  unfold update_spectrum read_samples
  rw [h]

/-! ### Claim theorems: threshold logic, error handling, handlers, `main` -/

/-- C3. The Threshold Detector is strictly greater-than: whenever the
maximum power of a spectrum (as computed by `np.max` over its power list)
is exactly equal to the slider threshold, `check_bandwidth`'s decision step
reports "not detected"; in general it detects exactly when the max power
strictly exceeds the threshold. -/
theorem c3_threshold_strict : ∀ (s : AppState) (ps : List ℝ),
    maxPowerF ps = FloatVal.fin ((s.threshold : ℝ)) →
    (check_bandwidth_with (maxPowerF ps) s).detected = false ∧
    ∀ m : ℝ, ((check_bandwidth_with (FloatVal.fin m) s).detected = true
        ↔ (s.threshold : ℝ) < m) := by
  intro s ps h
  constructor
  · rw [h, check_bandwidth_with_detected]
    simp [FloatVal.fgt]
  · intro m
    rw [check_bandwidth_with_detected]
    exact fgt_fin_iff m _

/-- Witness for C3 at the default −50 dB threshold and a one-bin spectrum
whose max power is exactly −50 dB. -/
theorem c3_threshold_strict_witness :
    maxPowerF [(-50 : ℝ)] = FloatVal.fin ((stPrior.threshold : ℝ)) ∧
    (check_bandwidth_with (maxPowerF [(-50 : ℝ)]) stPrior).detected = false := by
  have h : maxPowerF [(-50 : ℝ)] = FloatVal.fin ((stPrior.threshold : ℝ)) := by
    norm_num [maxPowerF, stPrior, THRESHOLD_POWER]
  exact ⟨h, (c3_threshold_strict stPrior [(-50 : ℝ)] h).1⟩

/-- C4. When the Sample Source returns no buffer, `analyze_signal` reports
max power `-inf`, and `check_bandwidth` reports "not detected", for every
threshold in [−120, 0] and regardless of the prior detection state. -/
theorem c4_no_buffer_not_detected : ∀ (o : Oracle) (s : AppState),
    -120 ≤ s.threshold → s.threshold ≤ 0 → o s.readCount = none →
    (analyze_signal o s).1 = FloatVal.negInf ∧
    (check_bandwidth o s).detected = false := by
  intro o s _ _ hnone
  constructor
  · rw [analyze_signal_eq, hnone]
  · rw [check_bandwidth_eq, hnone, check_bandwidth_with_detected]
    rfl

/-- Witness for C4: a device with no data, in a state currently reporting
"detected" at the default −50 dB threshold. -/
theorem c4_no_buffer_not_detected_witness :
    (-120 ≤ stPrior.threshold) ∧ (stPrior.threshold ≤ 0) ∧
    (analyze_signal oNone stPrior).1 = FloatVal.negInf ∧
    (check_bandwidth oNone stPrior).detected = false := by
  have h1 : -120 ≤ stPrior.threshold := by norm_num [stPrior, THRESHOLD_POWER]
  have h2 : stPrior.threshold ≤ 0 := by norm_num [stPrior, THRESHOLD_POWER]
  have h := c4_no_buffer_not_detected oNone stPrior h1 h2 rfl
  exact ⟨h1, h2, h.1, h.2⟩

/-- C7. Each frequency slider handler sets the device center frequency to
the arithmetic mean of the current center frequency and the slider-derived
frequency `FREQ_MIN + value * FREQ_SCALE`, and modifies no other device
configuration field (sample rate, LNA gain, VGA gain). -/
theorem c7_freq_sliders_average : ∀ (v : ℤ) (s : AppState),
    (on_freq_min_change v s).device.center_freq
      = (s.device.center_freq + (FREQ_MIN + (v : ℚ) * FREQ_SCALE)) / 2 ∧
    (on_freq_min_change v s).device.sample_rate = s.device.sample_rate ∧
    (on_freq_min_change v s).device.lna_gain = s.device.lna_gain ∧
    (on_freq_min_change v s).device.vga_gain = s.device.vga_gain ∧
    (on_freq_max_change v s).device.center_freq
      = (s.device.center_freq + (FREQ_MIN + (v : ℚ) * FREQ_SCALE)) / 2 ∧
    (on_freq_max_change v s).device.sample_rate = s.device.sample_rate ∧
    (on_freq_max_change v s).device.lna_gain = s.device.lna_gain ∧
    (on_freq_max_change v s).device.vga_gain = s.device.vga_gain := by
  intro v s
  exact ⟨rfl, rfl, rfl, rfl, rfl, rfl, rfl, rfl⟩

/-- C8. A `NaN` max power (the float image of `log10` on a zero/negative
power) compares false against every threshold, so the decision step of
`check_bandwidth` reports "not detected". -/
theorem c8_nan_not_detecting : ∀ (s : AppState),
    FloatVal.nan.fgt (s.threshold : ℝ) = false ∧
    (check_bandwidth_with FloatVal.nan s).detected = false := by
  intro s
  refine ⟨rfl, ?_⟩
  rw [check_bandwidth_with_detected]
  rfl

/-- C9. A tick on which `read_samples` yields no buffer terminates (the
model is a total function), performs no detection and leaves both the
displayed spectrum and the detection status unchanged: the whole state is
unchanged except the consumed read. -/
theorem c9_none_tick_unchanged : ∀ (o : Oracle) (s : AppState),
    o s.readCount = none →
    update_spectrum o s = { s with readCount := s.readCount + 1 } ∧
    (update_spectrum o s).displayed = s.displayed ∧
    (update_spectrum o s).detected = s.detected := by
  intro o s h
  have hu : update_spectrum o s = { s with readCount := s.readCount + 1 } := by
    unfold update_spectrum read_samples
    rw [h]
  exact ⟨hu, by rw [hu], by rw [hu]⟩

/-- Witness for C9: one tick against a device with no data. -/
theorem c9_none_tick_unchanged_witness :
    (oNone st0.readCount = none) ∧
    (update_spectrum oNone st0).displayed = st0.displayed ∧
    (update_spectrum oNone st0).detected = st0.detected := by
  have h := c9_none_tick_unchanged oNone st0 rfl
  exact ⟨rfl, h.2.1, h.2.2⟩

/-- C10. `main()` constructs `DroneDetectionApp`, a name bound neither by
the module's imports (`sys`, `QApplication`, `App`) nor by its own
definition, so every invocation raises `NameError` before `window.show()`
is reached: the application as shipped cannot start. -/
theorem c10_main_raises_name_error :
    main_run = MainOutcome.nameError missing_name ∧
    main_module_globals.contains missing_name = false ∧
    main_run ≠ MainOutcome.windowShown := by
  refine ⟨by decide, by decide, by decide⟩

/-! ### Two acquisitions per tick (claim C1) -/

lemma bufA_re : bufA.map Complex.re = List.replicate BUFFER_SIZE (1 : ℝ) := by
  unfold bufA
  rw [List.map_replicate]
  norm_num

lemma bufA_im_all_zero : ∀ y ∈ bufA.map Complex.im, y = 0 := by
  intro y hy
  unfold bufA at hy
  rw [List.map_replicate] at hy
  rcases List.mem_replicate.mp hy with ⟨_, rfl⟩
  norm_num

/-- The DC bin of the all-ones buffer sits at `10*log10(1/2)` ≈ −3 dB in the
complex path, comfortably above a −120 dB threshold. -/
lemma bufA_bin0_db :
    (compute_spectrum bufA).2.getD 0 0 = 10 * Real.logb 10 (1 / 2) := by
  rw [compute_spectrum_snd_getD bufA (by norm_num [BUFFER_SIZE])]
  rw [bufA_re, welch_power_ones, welch_power_of_all_zero bufA_im_all_zero]
  norm_num

lemma bufA_bin0_mem :
    (compute_spectrum bufA).2.getD 0 0 ∈ (compute_spectrum bufA).2 := by
  have hlen : 0 < (compute_spectrum bufA).2.length := by
    rw [compute_spectrum_eq]
    simp [BUFFER_SIZE]
  rw [List.getD_eq_getElem _ _ hlen]
  exact List.getElem_mem hlen

lemma neg120_lt_bufA_bin0 : (-120 : ℝ) < 10 * Real.logb 10 (1 / 2) := by
  have h1 : Real.logb 10 ((2 : ℝ)⁻¹) = -Real.logb 10 2 := Real.logb_inv 2
  have h2 : (1 : ℝ) / 2 = (2 : ℝ)⁻¹ := one_div 2
  rw [h2, h1]
  nlinarith [logb_ten_two_lt_one, logb_ten_two_pos]

/-- C1 (amended). A tick whose first acquisition succeeds performs a SECOND,
independent acquisition inside `check_bandwidth`: the displayed spectrum
comes from the first buffer, but the detection state is recomputed from the
second read — from the max power of the second buffer's spectrum if it
arrives, and as "not detected" if the second read returns none. -/
theorem c1_two_acquisitions_per_tick : ∀ (o : Oracle) (s : AppState) (buf : List ℂ),
    o s.readCount = some buf →
    (update_spectrum o s).readCount = s.readCount + 2 ∧
    (update_spectrum o s).displayed = compute_spectrum buf ∧
    (update_spectrum o s).detected =
      (match o (s.readCount + 1) with
        | some buf2 => (maxPowerF (compute_spectrum buf2).2).fgt (s.threshold : ℝ)
        | none => false) := by
  intro o s buf h
  rw [update_spectrum_some h, check_bandwidth_eq]
  refine ⟨?_, ?_, ?_⟩
  · rw [check_bandwidth_with_readCount]
  · rw [check_bandwidth_with_displayed]
  · rw [check_bandwidth_with_detected]
    cases ho : o (s.readCount + 1) with
    | some buf2 => rfl
    | none => rfl

/-- Witness for C1 (amended): the all-ones buffer on the first read, no
data on the second. -/
theorem c1_two_acquisitions_per_tick_witness :
    (oA st0.readCount = some bufA) ∧
    (update_spectrum oA st0).readCount = st0.readCount + 2 ∧
    (update_spectrum oA st0).displayed = compute_spectrum bufA ∧
    (update_spectrum oA st0).detected =
      (match oA (st0.readCount + 1) with
        | some buf2 => (maxPowerF (compute_spectrum buf2).2).fgt (st0.threshold : ℝ)
        | none => false) :=
  ⟨rfl, c1_two_acquisitions_per_tick oA st0 bufA rfl⟩

/-- Counterexample to C1 as stated. With the slider at −120 dB, a first read
delivering the all-ones buffer and a second read delivering none: the tick
consumes TWO reads (not one), displays the first buffer's spectrum — whose
max power exceeds the −120 dB threshold, so a detector driven by the
displayed buffer would report "detected" — and yet reports "not detected",
because the comparison used the separate second acquisition. -/
theorem c1_single_acquisition_cex :
    (update_spectrum oA st0).readCount = 2 ∧
    (update_spectrum oA st0).displayed = compute_spectrum bufA ∧
    (update_spectrum oA st0).detected = false ∧
    (maxPowerF (compute_spectrum bufA).2).fgt (st0.threshold : ℝ) = true := by
  have h : oA st0.readCount = some bufA := rfl
  rw [update_spectrum_some h, check_bandwidth_eq]
  refine ⟨?_, ?_, ?_, ?_⟩
  · rw [check_bandwidth_with_readCount]
    norm_num [st0]
  · rw [check_bandwidth_with_displayed]
  · rw [check_bandwidth_with_detected]
    rfl
  · apply maxPowerF_fgt_true bufA_bin0_mem
    rw [bufA_bin0_db]
    have hc : ((st0.threshold : ℤ) : ℝ) = -120 := by norm_num [st0]
    rw [hc]
    exact neg120_lt_bufA_bin0

/-! ### The complex path versus the real path (claim C2) -/

lemma compute_spectrum_fst (samples : List ℂ) :
    (compute_spectrum samples).1 = welch_freqs SAMPLE_RATE BUFFER_SIZE := by
  rw [compute_spectrum_eq]

lemma compute_spectrum_real_fst (xs : List ℝ) :
    (compute_spectrum_real xs).1 = welch_freqs SAMPLE_RATE BUFFER_SIZE := by
  rw [compute_spectrum_real_eq]

/-- On a complex buffer with zero imaginary part, each positive-power bin of
the complex path sits exactly `10*log10 2` below the real path: the imaginary
Welch powers vanish, and the complex path halves the summed power before the
dB conversion. -/
lemma complex_path_shift (xs : List ℝ) {k : ℕ} (hk : k < BUFFER_SIZE / 2 + 1)
    (hpos : 0 < welch_power xs BUFFER_SIZE k) :
    (compute_spectrum (xs.map Complex.ofReal)).2.getD k 0
      = (compute_spectrum_real xs).2.getD k 0 - 10 * Real.logb 10 2 := by
  rw [compute_spectrum_snd_getD _ hk, compute_spectrum_real_snd_getD _ hk]
  rw [map_ofReal_re, welch_power_of_all_zero (map_ofReal_im_all_zero xs), add_zero]
  exact db_half_shift hpos

lemma welch_xsI_bin1_pos : 0 < (welch xsI SAMPLE_RATE BUFFER_SIZE).2.getD 1 0 := by
  rw [welch_snd_getD xsI SAMPLE_RATE (by norm_num [BUFFER_SIZE])]
  rw [welch_power_xsI 1]
  norm_num [BUFFER_SIZE]

/-- C2 (amended). For a complex buffer whose imaginary part is everywhere
zero, the complex path does NOT reproduce the real path: the two outputs
share their frequency bins, but at every bin whose underlying Welch power is
strictly positive the complex-path dB value is exactly `10*log10 2`
(≈ 3.01 dB) below the real-path value, because the summed power is halved
before the conversion to decibels. -/
theorem c2_half_power_offset : ∀ (xs : List ℝ) (k : ℕ),
    k < BUFFER_SIZE / 2 + 1 →
    0 < (welch xs SAMPLE_RATE BUFFER_SIZE).2.getD k 0 →
    (compute_spectrum (xs.map Complex.ofReal)).2.getD k 0
      = (compute_spectrum_real xs).2.getD k 0 - 10 * Real.logb 10 2 ∧
    (compute_spectrum (xs.map Complex.ofReal)).1 = (compute_spectrum_real xs).1 := by
  intro xs k hk hpos
  rw [welch_snd_getD xs SAMPLE_RATE hk] at hpos
  refine ⟨complex_path_shift xs hk hpos, ?_⟩
  rw [compute_spectrum_fst, compute_spectrum_real_fst]

/-- Witness for C2 (amended): the impulse buffer, at bin 1, whose Welch
power is `1/50 > 0`. -/
theorem c2_half_power_offset_witness :
    (0 < (welch xsI SAMPLE_RATE BUFFER_SIZE).2.getD 1 0) ∧
    (compute_spectrum (xsI.map Complex.ofReal)).2.getD 1 0
      = (compute_spectrum_real xsI).2.getD 1 0 - 10 * Real.logb 10 2 ∧
    (compute_spectrum (xsI.map Complex.ofReal)).1 = (compute_spectrum_real xsI).1 := by
  have h := c2_half_power_offset xsI 1 (by norm_num [BUFFER_SIZE]) welch_xsI_bin1_pos
  exact ⟨welch_xsI_bin1_pos, h.1, h.2⟩

/-- Counterexample to C2 as stated: `xsI.map Complex.ofReal` is a complex
buffer whose imaginary part is everywhere zero, yet the complex-path
spectrum differs from the real-path spectrum of its real part — at bin 1
the outputs are `10*log10 2` apart, which is no numerical tolerance. -/
theorem c2_equal_paths_cex :
    compute_spectrum (xsI.map Complex.ofReal) ≠ compute_spectrum_real xsI := by
  intro hEq
  have h2 : (compute_spectrum (xsI.map Complex.ofReal)).2.getD 1 0
      = (compute_spectrum_real xsI).2.getD 1 0 := by rw [hEq]
  have hpos : 0 < welch_power xsI BUFFER_SIZE 1 := by
    have h := welch_xsI_bin1_pos
    rwa [welch_snd_getD xsI SAMPLE_RATE (by norm_num [BUFFER_SIZE])] at h
  have h3 := complex_path_shift xsI (k := 1) (by norm_num [BUFFER_SIZE]) hpos
  rw [h2] at h3
  have h4 := logb_ten_two_pos
  linarith

/-! ### Structure of the two conversion paths (claim C5) -/

/-- C5. `compute_spectrum` forms each complex-path bin by summing the two
independently computed Welch powers of the real and imaginary parts and
converting as `10*log10(power/2)`; the real path converts its single Welch
power as `10*log10(power)`. -/
theorem c5_welch_composition : ∀ (samples : List ℂ) (xs : List ℝ) (k : ℕ),
    k < BUFFER_SIZE / 2 + 1 →
    (compute_spectrum samples).2.getD k 0
      = 10 * Real.logb 10
          (((welch (samples.map Complex.re) SAMPLE_RATE BUFFER_SIZE).2.getD k 0
            + (welch (samples.map Complex.im) SAMPLE_RATE BUFFER_SIZE).2.getD k 0) / 2) ∧
    (compute_spectrum_real xs).2.getD k 0
      = 10 * Real.logb 10 ((welch xs SAMPLE_RATE BUFFER_SIZE).2.getD k 0) := by
  intro samples xs k hk
  constructor
  · rw [compute_spectrum_snd_getD samples hk,
      welch_snd_getD _ SAMPLE_RATE hk, welch_snd_getD _ SAMPLE_RATE hk]
  · rw [compute_spectrum_real_snd_getD xs hk, welch_snd_getD _ SAMPLE_RATE hk]

/-- Witness for C5 at the first bin of the empty buffer. -/
theorem c5_welch_composition_witness :
    (0 < BUFFER_SIZE / 2 + 1) ∧
    ((compute_spectrum []).2.getD 0 0
      = 10 * Real.logb 10
          ((((welch (([] : List ℂ).map Complex.re) SAMPLE_RATE BUFFER_SIZE).2.getD 0 0)
            + ((welch (([] : List ℂ).map Complex.im) SAMPLE_RATE BUFFER_SIZE).2.getD 0 0)) / 2)) ∧
    ((compute_spectrum_real []).2.getD 0 0
      = 10 * Real.logb 10 ((welch ([] : List ℝ) SAMPLE_RATE BUFFER_SIZE).2.getD 0 0)) := by
  have h := c5_welch_composition [] [] 0 (by norm_num [BUFFER_SIZE])
  exact ⟨by norm_num [BUFFER_SIZE], h.1, h.2⟩

/-! ### Frequency-axis invariants (claim C6) -/

/-- C6. Every frequency returned by `compute_spectrum` is ≥ 0, the
frequency sequence is strictly increasing (hence strictly non-decreasing) in
sequence order, and the returned sequence is exactly the order-preserving
filter of the Welch frequency grid to non-negative values. -/
theorem c6_freqs_nonneg_sorted : ∀ (samples : List ℂ),
    ((compute_spectrum samples).1.all (fun q => decide (0 ≤ q)) = true) ∧
    ((compute_spectrum samples).1.Sorted (fun a b => a < b)) ∧
    ((compute_spectrum samples).1
      = (welch_freqs SAMPLE_RATE BUFFER_SIZE).filter (fun q => decide (0 ≤ q))) := by
  intro samples
  have hnn := welch_freqs_nonneg (le_of_lt (by norm_num [SAMPLE_RATE] : (0:ℚ) < SAMPLE_RATE)) BUFFER_SIZE
  refine ⟨?_, ?_, ?_⟩
  · rw [compute_spectrum_fst]
    exact List.all_eq_true.mpr (fun q hq => decide_eq_true (hnn q hq))
  · rw [compute_spectrum_fst]
    unfold welch_freqs
    rw [List.Sorted, List.pairwise_map]
    apply List.Pairwise.imp _ (List.pairwise_lt_range _)
    intro a b hab
    have hcast : (a : ℚ) < (b : ℚ) := by exact_mod_cast hab
    have hc : 0 < SAMPLE_RATE / (BUFFER_SIZE : ℚ) := by
      norm_num [SAMPLE_RATE, BUFFER_SIZE]
    calc (a : ℚ) * SAMPLE_RATE / (BUFFER_SIZE : ℚ)
        = (a : ℚ) * (SAMPLE_RATE / (BUFFER_SIZE : ℚ)) := by ring
      _ < (b : ℚ) * (SAMPLE_RATE / (BUFFER_SIZE : ℚ)) := by
          exact mul_lt_mul_of_pos_right hcast hc
      _ = (b : ℚ) * SAMPLE_RATE / (BUFFER_SIZE : ℚ) := by ring
  · rw [compute_spectrum_fst]
    symm
    exact List.filter_eq_self.mpr (fun q hq => decide_eq_true (hnn q hq))
